import Mathlib

/-!
Verification of the plugin orchestration core (`src/lib.rs` of iced_plugins).

Shallow embedding conventions:
* Rust `TypeId` values are modelled as `Nat` type tags; a family
  `Ty : Nat → Type` interprets each tag as a concrete Lean type.
* A type-erased value (`Arc<dyn Any + Send + Sync>` / `Box<dyn Any + Send>`)
  is a dependent pair `Dyn Ty = Σ t, Ty t`; `downcast` succeeds exactly when
  the stored tag equals the requested tag, mirroring `Any::downcast_ref`.
* An iced `Task<M>` is modelled by the list of messages it eventually
  delivers: `Task::none()` is `[]`, `Task::done m` is `[m]`, `Task::map f`
  is `List.map f`, `Task::batch` is `List.flatten`.  An iced
  `Subscription<M>` is likewise modelled by the list of messages its merged
  stream yields, with `Subscription::batch` as `List.flatten`.
* An `mpsc::UnboundedSender<PluginOutput>` registered in the output
  registry is a `Listener`: a flag saying whether the receiving end is
  still alive (`unbounded_send` succeeds iff it is) together with the list
  of outputs successfully enqueued so far.
* A Rust panic (an `unwrap` of a failed downcast) is modelled by `none` in
  an `Option`-valued result.
-/

variable {Ty : Nat → Type}

/-- A type-erased value: the payload of `Arc<dyn Any + Send + Sync>`
together with the runtime tag of its concrete type. -/
abbrev Dyn (Ty : Nat → Type) : Type := Σ t : Nat, Ty t

/-- Rust `Any::downcast_ref::<T>`: succeeds exactly when the stored type tag
equals the requested one. -/
def Dyn.downcast (d : Dyn Ty) (t : Nat) : Option (Ty t) :=
  if h : d.fst = t then some (h ▸ d.snd) else none

/-- A type-erased plugin message (the inbound envelope `PluginMessage`). -/
structure PluginMessage (Ty : Nat → Type) where
  plugin_index : Nat
  type_id : Nat
  message : Dyn Ty

/-- Rust `PluginMessage::new`: wraps a concrete message, recording its type tag. -/
def PluginMessage.new (plugin_index : Nat) (t : Nat) (v : Ty t) : PluginMessage Ty :=
  { plugin_index := plugin_index, type_id := t, message := ⟨t, v⟩ }

/-- A type-erased plugin output (the outbound envelope `PluginOutput`). -/
structure PluginOutput (Ty : Nat → Type) where
  plugin_index : Nat
  type_id : Nat
  output : Dyn Ty

/-- Rust `PluginOutput::new`. -/
def PluginOutput.new (plugin_index : Nat) (t : Nat) (v : Ty t) : PluginOutput Ty :=
  { plugin_index := plugin_index, type_id := t, output := ⟨t, v⟩ }

/-- Rust `PluginOutput::downcast`: compare the stored tag with the requested one,
then downcast the erased payload. -/
def PluginOutput.downcast (o : PluginOutput Ty) (t : Nat) : Option (Ty t) :=
  if o.type_id = t then o.output.downcast t else none

/-- The behaviour of a plugin whose associated `State`, `Message` and
`Output` types have tags `s`, `m`, `o` (the `Plugin` trait operations). -/
structure PluginBody (Ty : Nat → Type) (s m o : Nat) where
  name : String
  init : Ty s × List (Ty m)
  update : Ty s → Ty m → Ty s × List (Ty m) × Option (Ty o)
  subscription : Ty s → List (Ty m)

/-- A concrete plugin instance: its `TypeId` (`pluginTypeId`), the tags of
its three associated types, and its behaviour. -/
structure TypedPlugin (Ty : Nat → Type) where
  pluginTypeId : Nat
  sTag : Nat
  mTag : Nat
  oTag : Nat
  body : PluginBody Ty sTag mTag oTag

/-- Rust `downcast_ref::<Arc<P>>` on the erased stored plugin: succeeds exactly
when the stored plugin's type identity (its `TypeId` and the tags of its
associated types, all determined by `P`) matches the requested one. -/
def TypedPlugin.downcastTo (p : TypedPlugin Ty) (pid s m o : Nat) :
    Option (PluginBody Ty s m o) :=
  if _hp : p.pluginTypeId = pid then
    if hs : p.sTag = s then
      if hm : p.mTag = m then
        if ho : p.oTag = o then some (hs ▸ hm ▸ ho ▸ p.body) else none
      else none
    else none
  else none

/-- One registered output listener: whether its receiving end is still
alive, and the outputs successfully sent to it so far. -/
structure Listener (Ty : Nat → Type) where
  alive : Bool
  received : List (PluginOutput Ty)

/-- The shared output registry: plugin slot index ↦ registered senders. -/
abbrev OutputRegistry (Ty : Nat → Type) : Type := Nat → List (Listener Ty)

/-- Registration performed when a `listen`/`listen_with` stream starts:
push a fresh sender under the slot's index. -/
def OutputRegistry.register (reg : OutputRegistry Ty) (plugin_index : Nat) :
    OutputRegistry Ty :=
  fun j =>
    if j = plugin_index then reg plugin_index ++ [{ alive := true, received := [] }]
    else reg j

/-- The fan-out performed inside `PluginManager::update`:
`senders.retain(|s| s.unbounded_send(output.clone()).is_ok())`.  Each live
sender gets one clone of the output appended; senders whose receiver is
gone fail the send and are dropped from the list. -/
def OutputRegistry.publish (reg : OutputRegistry Ty) (plugin_index : Nat)
    (out : PluginOutput Ty) : OutputRegistry Ty :=
  fun j =>
    if j = plugin_index then
      (reg plugin_index).filterMap (fun l =>
        if l.alive then some { alive := true, received := l.received ++ [out] } else none)
    else reg j

/-- One iteration of the receive loop in `output_listener_filtered`: the
received erased output is forwarded through the user filter only when its
slot index and output type tag match the listener's and the downcast
succeeds. -/
def output_listener_step {R : Type} (plugin_index output_type_id : Nat)
    (filter : Ty output_type_id → Option R) (out : PluginOutput Ty) : Option R :=
  if out.plugin_index = plugin_index ∧ out.type_id = output_type_id then
    match out.downcast output_type_id with
    | some v => filter v
    | none => none
  else none

/-- The items a `listen_with` subscription emits, given the outputs that
reached its channel (the loop body of `output_listener_filtered`). -/
def output_listener_events {R : Type} (plugin_index output_type_id : Nat)
    (filter : Ty output_type_id → Option R) (items : List (PluginOutput Ty)) : List R :=
  items.filterMap (output_listener_step plugin_index output_type_id filter)

/-- One registry slot (`PluginEntry`). -/
structure PluginEntry (Ty : Nat → Type) where
  name : String
  state : Dyn Ty
  plugin_type : Nat
  message_type_id : Nat
  output_type_id : Nat
  plugin : TypedPlugin Ty
  plugin_index : Nat
  update_fn : Dyn Ty → Dyn Ty → Dyn Ty × List (PluginMessage Ty) × Option (PluginOutput Ty)
  subscription_fn : Dyn Ty → TypedPlugin Ty → Nat → Option (List (PluginMessage Ty))

/-- The update closure built in `install_internal`: guarded downcasts of
the erased message and state; on success run the plugin's `update`, map
the task's messages and the output back to slot-tagged envelopes; on
failure leave the state untouched and return a no-op. -/
def install_update_fn (p : TypedPlugin Ty) (plugin_index : Nat)
    (state : Dyn Ty) (message : Dyn Ty) :
    Dyn Ty × List (PluginMessage Ty) × Option (PluginOutput Ty) :=
  match message.downcast p.mTag with
  | some msg =>
    match state.downcast p.sTag with
    | some typed_state =>
      let result := p.body.update typed_state msg
      (⟨p.sTag, result.1⟩,
       (result.2.1).map (fun m => PluginMessage.new plugin_index p.mTag m),
       (result.2.2).map (fun o => PluginOutput.new plugin_index p.oTag o))
    | none => (state, [], none)
  | none => (state, [], none)

/-- Rust `plugin_subscription_fn::<P>`: unchecked downcasts of the erased state
and the erased plugin (an `unwrap` failure is a panic, modelled as `none`),
then the plugin's `subscription` on the typed state, every yielded message
wrapped with the slot's index. -/
def plugin_subscription_fn (pid s m o : Nat) (state : Dyn Ty)
    (plugin : TypedPlugin Ty) (plugin_index : Nat) :
    Option (List (PluginMessage Ty)) :=
  match state.downcast s with
  | none => none
  | some typed_state =>
    match plugin.downcastTo pid s m o with
    | none => none
    | some body =>
      some ((body.subscription typed_state).map
        (fun msg => PluginMessage.new plugin_index m msg))

/-- The `PluginEntry` that `install_internal` stores for plugin `p` at slot
`plugin_index`, with current state `sv`. -/
def mk_entry (p : TypedPlugin Ty) (plugin_index : Nat) (sv : Ty p.sTag) :
    PluginEntry Ty :=
  { name := p.body.name
    state := ⟨p.sTag, sv⟩
    plugin_type := p.pluginTypeId
    message_type_id := p.mTag
    output_type_id := p.oTag
    plugin := p
    plugin_index := plugin_index
    update_fn := install_update_fn p plugin_index
    subscription_fn := plugin_subscription_fn p.pluginTypeId p.sTag p.mTag p.oTag }

/-- Rust `PluginManager`: the ordered slots plus the shared output registry. -/
structure PluginManager (Ty : Nat → Type) where
  plugins : List (PluginEntry Ty)
  output_registry : OutputRegistry Ty

/-- Rust `PluginManager::new`. -/
def PluginManager.new : PluginManager Ty :=
  { plugins := [], output_registry := fun _ => [] }

/-- A typed handle to one slot (`PluginHandle<P>`): the slot index plus the
phantom type information of `P` (its message and output tags). -/
structure PluginHandle where
  plugin_index : Nat
  mTag : Nat
  oTag : Nat

/-- Rust `PluginHandle::message`: wrap a typed message into an envelope
addressed to this handle's slot. -/
def PluginHandle.message (h : PluginHandle) (v : Ty h.mTag) : PluginMessage Ty :=
  PluginMessage.new h.plugin_index h.mTag v

/-- Rust `PluginHandle::dispatch`: `Task::done` of the wrapped envelope. -/
def PluginHandle.dispatch (h : PluginHandle) (v : Ty h.mTag) : List (PluginMessage Ty) :=
  [PluginHandle.message h v]

/-- Rust `PluginManager::install_internal`: append a new slot, hand back the
typed handle and the init task with every message slot-tagged. -/
def PluginManager.install_internal (mgr : PluginManager Ty) (p : TypedPlugin Ty) :
    PluginManager Ty × PluginHandle × List (PluginMessage Ty) :=
  let plugin_index := mgr.plugins.length
  ({ plugins := mgr.plugins ++ [mk_entry p plugin_index p.body.init.1],
     output_registry := mgr.output_registry },
   { plugin_index := plugin_index, mTag := p.mTag, oTag := p.oTag },
   (p.body.init.2).map (fun msg => PluginMessage.new plugin_index p.mTag msg))

/-- Rust `PluginManager::update`: look up the addressed slot; if present and the
envelope's type tag equals the slot's message type tag, run the slot's
update thunk, store the new state, publish any produced output to this
slot's listeners, and return the produced task; otherwise a no-op. -/
def PluginManager.update (mgr : PluginManager Ty) (message : PluginMessage Ty) :
    PluginManager Ty × List (PluginMessage Ty) :=
  match mgr.plugins[message.plugin_index]? with
  | some entry =>
    if entry.message_type_id = message.type_id then
      let result := entry.update_fn entry.state message.message
      ({ plugins := mgr.plugins.set message.plugin_index { entry with state := result.1 },
         output_registry :=
           match result.2.2 with
           | some out => mgr.output_registry.publish message.plugin_index out
           | none => mgr.output_registry },
       result.2.1)
    else (mgr, [])
  | none => (mgr, [])

/-- Collect each slot's subscription in order; a panic in any slot's
`plugin_subscription_fn` (a failed unchecked downcast) aborts everything. -/
def collect_subscriptions : List (PluginEntry Ty) → Option (List (List (PluginMessage Ty)))
  | [] => some []
  | e :: rest =>
    match e.subscription_fn e.state e.plugin e.plugin_index with
    | none => none
    | some s =>
      match collect_subscriptions rest with
      | none => none
      | some ss => some (s :: ss)

/-- Rust `PluginManager::subscriptions`: every slot's subscription, batched. -/
def PluginManager.subscriptions (mgr : PluginManager Ty) :
    Option (List (PluginMessage Ty)) :=
  (collect_subscriptions mgr.plugins).map List.flatten

/-- Rust `PluginManager::plugin_count`. -/
def PluginManager.plugin_count (mgr : PluginManager Ty) : Nat :=
  mgr.plugins.length

/-- Rust `PluginManager::plugin_names`. -/
def PluginManager.plugin_names (mgr : PluginManager Ty) : List String :=
  mgr.plugins.map (fun e => e.name)

/-- Rust `PluginManager::get_plugin_state::<P>`: find the first slot whose
stored plugin `TypeId` is `P`'s, then downcast its state to `P::State`. -/
def PluginManager.get_plugin_state (mgr : PluginManager Ty) (pid sTag : Nat) :
    Option (Ty sTag) :=
  ((mgr.plugins.find? (fun e => pid == e.plugin_type)).map (fun e => e.state)).bind
    (fun st => st.downcast sTag)

/-- Rust `PluginManager::get_plugin_state_mut::<P>`: same first-match lookup as
`get_plugin_state`, through `iter_mut`; the model returns the state the
mutable reference would point at. -/
def PluginManager.get_plugin_state_mut (mgr : PluginManager Ty) (pid sTag : Nat) :
    Option (Ty sTag) :=
  ((mgr.plugins.find? (fun e => pid == e.plugin_type)).map (fun e => e.state)).bind
    (fun st => st.downcast sTag)

/-- Rust `PluginManager::get_handle::<P>`: find the first slot whose stored
plugin `TypeId` is `P`'s and build a handle to its index. -/
def PluginManager.get_handle (mgr : PluginManager Ty) (pid mTag oTag : Nat) :
    Option PluginHandle :=
  (mgr.plugins.find? (fun e => pid == e.plugin_type)).map
    (fun e => { plugin_index := e.plugin_index, mTag := mTag, oTag := oTag })

/-- Rust `PluginManagerBuilder`. -/
structure PluginManagerBuilder (Ty : Nat → Type) where
  manager : PluginManager Ty
  tasks : List (List (PluginMessage Ty))

/-- Rust `PluginManagerBuilder::new`. -/
def PluginManagerBuilder.new : PluginManagerBuilder Ty :=
  { manager := PluginManager.new, tasks := [] }

/-- Rust `PluginManagerBuilder::install`: install into the builder's manager,
record the init task, return the handle. -/
def PluginManagerBuilder.install (b : PluginManagerBuilder Ty) (p : TypedPlugin Ty) :
    PluginHandle × PluginManagerBuilder Ty :=
  let r := b.manager.install_internal p
  (r.2.1, { manager := r.1, tasks := b.tasks ++ [r.2.2] })

/-- Rust `PluginManagerBuilder::with_plugin`. -/
def PluginManagerBuilder.with_plugin (b : PluginManagerBuilder Ty)
    (p : TypedPlugin Ty) : PluginManagerBuilder Ty :=
  (b.install p).2

/-- Rust `PluginManagerBuilder::build`: the accumulated manager together with
`Task::batch` of all recorded init tasks. -/
def PluginManagerBuilder.build (b : PluginManagerBuilder Ty) :
    PluginManager Ty × List (PluginMessage Ty) :=
  (b.manager, b.tasks.flatten)

/-! ## Installed managers -/

/-- A slot is install-shaped: it is exactly what `install_internal` stores
for some plugin at this index, with some current state. -/
def EntryInstalled (i : Nat) (e : PluginEntry Ty) : Prop :=
  ∃ (p : TypedPlugin Ty) (sv : Ty p.sTag), e = mk_entry p i sv

/-- Every slot of the manager is install-shaped at its own index; this is
the invariant of every manager built through `install` and maintained by
`update`. -/
def PluginManager.Installed (mgr : PluginManager Ty) : Prop :=
  ∀ i e, mgr.plugins[i]? = some e → EntryInstalled i e

/-- The subscription a slot contributes (the value of its
`subscription_fn`, when it does not panic). -/
def entry_subscription (e : PluginEntry Ty) : List (PluginMessage Ty) :=
  (e.subscription_fn e.state e.plugin e.plugin_index).getD []

/-- The slots a sequence of installs produces, starting at index `k`. -/
def mk_entries (k : Nat) : List (TypedPlugin Ty) → List (PluginEntry Ty)
  | [] => []
  | p :: ps => mk_entry p k p.body.init.1 :: mk_entries (k + 1) ps

/-- The init tasks a sequence of installs records, starting at index `k`. -/
def mk_init_tasks (k : Nat) : List (TypedPlugin Ty) → List (List (PluginMessage Ty))
  | [] => []
  | p :: ps =>
    (p.body.init.2).map (fun m => PluginMessage.new k p.mTag m) :: mk_init_tasks (k + 1) ps

/-! ## Concrete fixture used by witnesses -/

/-- A concrete tag interpretation for witnesses: every tag is `Nat`. -/
abbrev WTy : Nat → Type := fun _ => Nat

/-- A small concrete plugin behaviour. -/
def wbody : PluginBody WTy 0 0 0 :=
  { name := "counter"
    init := (5, [1])
    update := fun s m => (s + m, [s + m], some (s + m))
    subscription := fun s => [s] }

/-- A concrete plugin instance with `TypeId` 7. -/
def wplug : TypedPlugin WTy :=
  { pluginTypeId := 7, sTag := 0, mTag := 0, oTag := 0, body := wbody }

/-- A registry with one live listener on every slot. -/
def wreg : OutputRegistry WTy := fun _ => [{ alive := true, received := [] }]

/-- A one-plugin manager in its post-install state. -/
def wmgr : PluginManager WTy :=
  { plugins := [mk_entry wplug 0 5], output_registry := wreg }

/-- A registry holding one live and one dead listener on every slot. -/
def wreg2 : OutputRegistry WTy :=
  fun _ => [{ alive := true, received := [] }, { alive := false, received := [] }]

/-- A second, distinct instance of the same concrete plugin type
(`TypeId` 7 again, with different behaviour and initial state). -/
def wbody2 : PluginBody WTy 0 0 0 :=
  { name := "counter2"
    init := (9, [])
    update := fun s m => (s * m, [], none)
    subscription := fun _ => [] }

/-- The second instance, sharing `wplug`'s type identity. -/
def wplug2 : TypedPlugin WTy :=
  { pluginTypeId := 7, sTag := 0, mTag := 0, oTag := 0, body := wbody2 }

/-- A manager holding two plugins of the same concrete type. -/
def wmgr2 : PluginManager WTy :=
  { plugins := [mk_entry wplug 0 5, mk_entry wplug2 1 9], output_registry := wreg }

/-! ## Basic reduction lemmas -/

theorem Dyn.downcast_mk (t : Nat) (v : Ty t) :
    Dyn.downcast (⟨t, v⟩ : Dyn Ty) t = some v := by
  unfold Dyn.downcast
  rw [dif_pos rfl]

theorem Dyn.downcast_ne (s t : Nat) (v : Ty s) (h : s ≠ t) :
    Dyn.downcast (⟨s, v⟩ : Dyn Ty) t = none := by
  unfold Dyn.downcast
  rw [dif_neg h]

theorem TypedPlugin.downcastTo_self (p : TypedPlugin Ty) :
    p.downcastTo p.pluginTypeId p.sTag p.mTag p.oTag = some p.body := by
  unfold TypedPlugin.downcastTo
  rw [dif_pos rfl, dif_pos rfl, dif_pos rfl, dif_pos rfl]

theorem PluginOutput.downcast_new (idx t : Nat) (v : Ty t) :
    (PluginOutput.new idx t v : PluginOutput Ty).downcast t = some v := by
  unfold PluginOutput.downcast PluginOutput.new
  rw [if_pos rfl, Dyn.downcast_mk]

theorem install_update_fn_new (p : TypedPlugin Ty) (idx : Nat)
    (sv : Ty p.sTag) (mv : Ty p.mTag) :
    install_update_fn p idx ⟨p.sTag, sv⟩ ⟨p.mTag, mv⟩
      = (⟨p.sTag, (p.body.update sv mv).1⟩,
         ((p.body.update sv mv).2.1).map (fun m => PluginMessage.new idx p.mTag m),
         ((p.body.update sv mv).2.2).map (fun o => PluginOutput.new idx p.oTag o)) := by
  unfold install_update_fn
  rw [Dyn.downcast_mk, Dyn.downcast_mk]

theorem plugin_subscription_fn_mk (p : TypedPlugin Ty) (idx : Nat) (sv : Ty p.sTag) :
    plugin_subscription_fn p.pluginTypeId p.sTag p.mTag p.oTag
        (⟨p.sTag, sv⟩ : Dyn Ty) p idx
      = some ((p.body.subscription sv).map (fun m => PluginMessage.new idx p.mTag m)) := by
  unfold plugin_subscription_fn
  rw [Dyn.downcast_mk, TypedPlugin.downcastTo_self]

/-! ## Unfolding lemmas for `PluginManager.update` -/

theorem PluginManager.update_oob (mgr : PluginManager Ty) (msg : PluginMessage Ty)
    (h : mgr.plugins[msg.plugin_index]? = none) :
    mgr.update msg = (mgr, []) := by
  unfold PluginManager.update
  rw [h]

theorem PluginManager.update_mismatch (mgr : PluginManager Ty) (msg : PluginMessage Ty)
    (entry : PluginEntry Ty)
    (h : mgr.plugins[msg.plugin_index]? = some entry)
    (ht : entry.message_type_id ≠ msg.type_id) :
    mgr.update msg = (mgr, []) := by
  unfold PluginManager.update
  rw [h]
  simp only [if_neg ht]

theorem PluginManager.update_found (mgr : PluginManager Ty) (msg : PluginMessage Ty)
    (entry : PluginEntry Ty)
    (h : mgr.plugins[msg.plugin_index]? = some entry)
    (ht : entry.message_type_id = msg.type_id) :
    mgr.update msg =
      ({ plugins := mgr.plugins.set msg.plugin_index
           { entry with state := (entry.update_fn entry.state msg.message).1 },
         output_registry :=
           match (entry.update_fn entry.state msg.message).2.2 with
           | some out => mgr.output_registry.publish msg.plugin_index out
           | none => mgr.output_registry },
       (entry.update_fn entry.state msg.message).2.1) := by
  unfold PluginManager.update
  rw [h]
  simp only [if_pos ht]

/-! ## Fan-out lemmas -/

theorem send_all_eq (xs : List (Listener Ty)) (out : PluginOutput Ty) :
    xs.filterMap (fun l =>
        if l.alive then some (Listener.mk true (l.received ++ [out]))
        else none)
      = (xs.filter (fun l => l.alive)).map
          (fun l => Listener.mk true (l.received ++ [out])) := by
  induction xs with
  | nil => rfl
  | cons x xs ih =>
    cases hx : x.alive <;>
      simp [List.filterMap_cons, List.filter_cons, hx, ih]

theorem publish_at (reg : OutputRegistry Ty) (i : Nat) (out : PluginOutput Ty) :
    (reg.publish i out) i
      = ((reg i).filter (fun l => l.alive)).map
          (fun l => Listener.mk true (l.received ++ [out])) := by
  unfold OutputRegistry.publish
  rw [if_pos rfl, send_all_eq]

theorem publish_ne (reg : OutputRegistry Ty) (i j : Nat) (out : PluginOutput Ty)
    (h : j ≠ i) : (reg.publish i out) j = reg j := by
  unfold OutputRegistry.publish
  rw [if_neg h]

theorem publish_all_alive (reg : OutputRegistry Ty) (i : Nat) (out : PluginOutput Ty)
    (h : ∀ l ∈ reg i, l.alive = true) :
    (reg.publish i out) i
      = (reg i).map (fun l => Listener.mk true (l.received ++ [out])) := by
  rw [publish_at, List.filter_eq_self.mpr h]

theorem output_listener_events_append {R : Type} (plugin_index output_type_id : Nat)
    (filter : Ty output_type_id → Option R) (items more : List (PluginOutput Ty)) :
    output_listener_events plugin_index output_type_id filter (items ++ more)
      = output_listener_events plugin_index output_type_id filter items
        ++ output_listener_events plugin_index output_type_id filter more := by
  unfold output_listener_events
  rw [List.filterMap_append]

theorem output_listener_step_new {R : Type} (i t : Nat)
    (filter : Ty t → Option R) (v : Ty t) :
    output_listener_step i t filter (PluginOutput.new i t v) = filter v := by
  unfold output_listener_step
  rw [if_pos ⟨rfl, rfl⟩, PluginOutput.downcast_new]

theorem installed_new : (PluginManager.new : PluginManager Ty).Installed := by
  intro i e he
  simp [PluginManager.new] at he

theorem installed_install (mgr : PluginManager Ty) (p : TypedPlugin Ty)
    (h : mgr.Installed) : (mgr.install_internal p).1.Installed := by
  intro i e he
  unfold PluginManager.install_internal at he
  simp only [List.getElem?_append] at he
  by_cases hi : i < mgr.plugins.length
  · rw [if_pos hi] at he
    exact h i e he
  · rw [if_neg hi] at he
    rcases List.getElem?_eq_some_iff.mp he with ⟨hlt, hget⟩
    simp only [List.length_cons, List.length_nil] at hlt
    have : i = mgr.plugins.length := by omega
    subst this
    simp only [Nat.sub_self] at hget
    exact ⟨p, p.body.init.1, hget.symm⟩

theorem install_update_fn_state (p : TypedPlugin Ty) (idx : Nat)
    (sv : Ty p.sTag) (m : Dyn Ty) :
    ∃ sv', (install_update_fn p idx ⟨p.sTag, sv⟩ m).1 = ⟨p.sTag, sv'⟩ := by
  unfold install_update_fn
  cases hm : m.downcast p.mTag with
  | none => exact ⟨sv, rfl⟩
  | some mv =>
    rw [Dyn.downcast_mk]
    exact ⟨(p.body.update sv mv).1, rfl⟩

theorem entry_update_installed (entry : PluginEntry Ty) (n : Nat)
    (hE : EntryInstalled n entry) (m : Dyn Ty) :
    EntryInstalled n { entry with state := (entry.update_fn entry.state m).1 } := by
  rcases hE with ⟨p, sv, rfl⟩
  rcases install_update_fn_state p n sv m with ⟨sv', h⟩
  refine ⟨p, sv', ?_⟩
  show ({ mk_entry p n sv with
    state := (install_update_fn p n (⟨p.sTag, sv⟩ : Dyn Ty) m).1 } : PluginEntry Ty)
      = mk_entry p n sv'
  rw [h]
  rfl

theorem installed_update (mgr : PluginManager Ty) (msg : PluginMessage Ty)
    (h : mgr.Installed) : (mgr.update msg).1.Installed := by
  cases hm : mgr.plugins[msg.plugin_index]? with
  | none =>
    rw [PluginManager.update_oob mgr msg hm]
    exact h
  | some entry =>
    by_cases ht : entry.message_type_id = msg.type_id
    · rw [PluginManager.update_found mgr msg entry hm ht]
      intro i e he
      have he' : (mgr.plugins.set msg.plugin_index
          { entry with state := (entry.update_fn entry.state msg.message).1 })[i]?
            = some e := he
      rw [List.getElem?_set] at he'
      by_cases hi : msg.plugin_index = i
      · rw [if_pos hi] at he'
        by_cases hlt : msg.plugin_index < mgr.plugins.length
        · rw [if_pos hlt] at he'
          injection he' with he'
          subst he'
          subst hi
          exact entry_update_installed entry msg.plugin_index (h _ _ hm) msg.message
        · rw [if_neg hlt] at he'
          exact absurd he' (by simp)
      · rw [if_neg hi] at he'
        exact h i e he'
    · rw [PluginManager.update_mismatch mgr msg entry hm ht]
      exact h

/-! ## First-match lookup -/

theorem find?_first {α : Type} (pred : α → Bool) (l : List α) (i : Nat) (a : α)
    (ha : l[i]? = some a) (hpa : pred a = true)
    (hmin : ∀ k, k < i → ∀ b, l[k]? = some b → pred b = false) :
    l.find? pred = some a := by
  induction l generalizing i with
  | nil => simp at ha
  | cons x xs ih =>
    cases i with
    | zero =>
      rw [List.getElem?_cons_zero] at ha
      injection ha with ha
      subst ha
      simp only [List.find?_cons, hpa]
    | succ n =>
      have hx : pred x = false := hmin 0 (Nat.succ_pos n) x (by simp)
      rw [List.getElem?_cons_succ] at ha
      simp only [List.find?_cons, hx]
      exact ih n ha (fun k hk b hb =>
        hmin (k + 1) (Nat.succ_lt_succ hk) b (by simpa using hb))

/-! ## Subscription collection -/

theorem entry_subscription_fn_isSome (p : TypedPlugin Ty) (i : Nat) (sv : Ty p.sTag) :
    ((mk_entry p i sv).subscription_fn (mk_entry p i sv).state
      (mk_entry p i sv).plugin (mk_entry p i sv).plugin_index).isSome = true := by
  show (plugin_subscription_fn p.pluginTypeId p.sTag p.mTag p.oTag
    (⟨p.sTag, sv⟩ : Dyn Ty) p i).isSome = true
  rw [plugin_subscription_fn_mk]
  rfl

theorem entry_subscription_mk (p : TypedPlugin Ty) (i : Nat) (sv : Ty p.sTag) :
    entry_subscription (mk_entry p i sv)
      = (p.body.subscription sv).map (fun m => PluginMessage.new i p.mTag m) := by
  show (plugin_subscription_fn p.pluginTypeId p.sTag p.mTag p.oTag
    (⟨p.sTag, sv⟩ : Dyn Ty) p i).getD [] = _
  rw [plugin_subscription_fn_mk]
  rfl

theorem installed_sub_isSome (mgr : PluginManager Ty) (hI : mgr.Installed) :
    ∀ e ∈ mgr.plugins,
      (e.subscription_fn e.state e.plugin e.plugin_index).isSome = true := by
  intro e he
  rcases List.getElem?_of_mem he with ⟨n, hn⟩
  rcases hI n e hn with ⟨p, sv, rfl⟩
  exact entry_subscription_fn_isSome p n sv

theorem collect_subscriptions_eq (l : List (PluginEntry Ty))
    (h : ∀ e ∈ l, (e.subscription_fn e.state e.plugin e.plugin_index).isSome = true) :
    collect_subscriptions l = some (l.map entry_subscription) := by
  induction l with
  | nil => rfl
  | cons e rest ih =>
    have he := h e (List.mem_cons_self e rest)
    rcases Option.isSome_iff_exists.mp he with ⟨s, hs⟩
    unfold collect_subscriptions
    rw [hs, ih (fun e' he' => h e' (List.mem_cons_of_mem e he'))]
    simp [entry_subscription, hs]

/-! ## Builder characterization -/

theorem with_plugin_manager (b : PluginManagerBuilder Ty) (p : TypedPlugin Ty) :
    (b.with_plugin p).manager.plugins
      = b.manager.plugins ++ [mk_entry p b.manager.plugins.length p.body.init.1] := rfl

theorem with_plugin_tasks (b : PluginManagerBuilder Ty) (p : TypedPlugin Ty) :
    (b.with_plugin p).tasks
      = b.tasks ++ [(p.body.init.2).map
          (fun m => PluginMessage.new b.manager.plugins.length p.mTag m)] := rfl

theorem with_plugin_registry (b : PluginManagerBuilder Ty) (p : TypedPlugin Ty) :
    (b.with_plugin p).manager.output_registry = b.manager.output_registry := rfl

theorem foldl_with_plugin (ps : List (TypedPlugin Ty)) (b : PluginManagerBuilder Ty) :
    (ps.foldl PluginManagerBuilder.with_plugin b).manager.plugins
        = b.manager.plugins ++ mk_entries b.manager.plugins.length ps
      ∧ (ps.foldl PluginManagerBuilder.with_plugin b).tasks
        = b.tasks ++ mk_init_tasks b.manager.plugins.length ps
      ∧ (ps.foldl PluginManagerBuilder.with_plugin b).manager.output_registry
        = b.manager.output_registry := by
  induction ps generalizing b with
  | nil => simp [mk_entries, mk_init_tasks]
  | cons p ps ih =>
    rcases ih (b.with_plugin p) with ⟨h1, h2, h3⟩
    have hlen : (b.with_plugin p).manager.plugins.length
        = b.manager.plugins.length + 1 := by
      rw [with_plugin_manager]
      simp
    refine ⟨?_, ?_, ?_⟩
    · rw [List.foldl_cons, h1, hlen, with_plugin_manager]
      simp [mk_entries]
    · rw [List.foldl_cons, h2, hlen, with_plugin_tasks]
      simp [mk_init_tasks]
    · rw [List.foldl_cons, h3, with_plugin_registry]

theorem mk_entries_getElem (k : Nat) (ps : List (TypedPlugin Ty)) (i : Nat) :
    (mk_entries k ps)[i]?
      = (ps[i]?).map (fun p => mk_entry p (k + i) p.body.init.1) := by
  induction ps generalizing k i with
  | nil => simp [mk_entries]
  | cons p ps ih =>
    cases i with
    | zero => simp [mk_entries]
    | succ n =>
      simp only [mk_entries, List.getElem?_cons_succ, ih (k + 1) n]
      have hkn : k + 1 + n = k + (n + 1) := by omega
      rw [hkn]

theorem mk_init_tasks_getElem (k : Nat) (ps : List (TypedPlugin Ty)) (i : Nat) :
    (mk_init_tasks k ps)[i]?
      = (ps[i]?).map (fun p =>
          (p.body.init.2).map (fun m => PluginMessage.new (k + i) p.mTag m)) := by
  induction ps generalizing k i with
  | nil => simp [mk_init_tasks]
  | cons p ps ih =>
    cases i with
    | zero => simp [mk_init_tasks]
    | succ n =>
      simp only [mk_init_tasks, List.getElem?_cons_succ, ih (k + 1) n]
      have hkn : k + 1 + n = k + (n + 1) := by omega
      rw [hkn]

theorem mk_entries_length (k : Nat) (ps : List (TypedPlugin Ty)) :
    (mk_entries k ps : List (PluginEntry Ty)).length = ps.length := by
  induction ps generalizing k with
  | nil => rfl
  | cons p ps ih => simp [mk_entries, ih]

/-! ## Claims -/

/-- C1: for a manager whose slot `i` is installed with plugin `p` and
current state `sv`, routing the envelope built by handle `i`
(`dispatch`/`message`) through `PluginManager::update` invokes exactly
slot `i`'s update with the message on slot `i`'s current state — slot `i`
now holds `(p.update sv mv).1`, the returned task is slot `i`'s task with
every message re-tagged for slot `i`, and every other slot is unchanged. -/
theorem c1_routing_correctness (mgr : PluginManager Ty) (p : TypedPlugin Ty) (i : Nat)
    (sv : Ty p.sTag) (mv : Ty p.mTag)
    (h : mgr.plugins[i]? = some (mk_entry p i sv)) :
    PluginHandle.dispatch ⟨i, p.mTag, p.oTag⟩ mv
        = [PluginHandle.message ⟨i, p.mTag, p.oTag⟩ mv]
      ∧ (mgr.update (PluginHandle.message ⟨i, p.mTag, p.oTag⟩ mv)).1.plugins[i]?
        = some (mk_entry p i (p.body.update sv mv).1)
      ∧ (∀ j, j ≠ i →
          (mgr.update (PluginHandle.message ⟨i, p.mTag, p.oTag⟩ mv)).1.plugins[j]?
            = mgr.plugins[j]?)
      ∧ (mgr.update (PluginHandle.message ⟨i, p.mTag, p.oTag⟩ mv)).2
        = ((p.body.update sv mv).2.1).map (fun m => PluginMessage.new i p.mTag m) := by
  have hlt : i < mgr.plugins.length := (List.getElem?_eq_some_iff.mp h).1
  have hup : (mk_entry p i sv).update_fn (mk_entry p i sv).state
      (PluginMessage.new i p.mTag mv).message
      = (⟨p.sTag, (p.body.update sv mv).1⟩,
         ((p.body.update sv mv).2.1).map (fun m => PluginMessage.new i p.mTag m),
         ((p.body.update sv mv).2.2).map (fun o => PluginOutput.new i p.oTag o)) :=
    install_update_fn_new p i sv mv
  have hfound := PluginManager.update_found mgr (PluginMessage.new i p.mTag mv)
    (mk_entry p i sv) h rfl
  rw [hup] at hfound
  refine ⟨rfl, ?_, ?_, ?_⟩
  · show (mgr.update (PluginMessage.new i p.mTag mv)).1.plugins[i]? = _
    rw [hfound]
    show (mgr.plugins.set i (mk_entry p i (p.body.update sv mv).1))[i]? = _
    rw [List.getElem?_set]
    rw [if_pos rfl, if_pos hlt]
  · intro j hj
    show (mgr.update (PluginMessage.new i p.mTag mv)).1.plugins[j]? = _
    rw [hfound]
    show (mgr.plugins.set i (mk_entry p i (p.body.update sv mv).1))[j]? = _
    rw [List.getElem?_set_ne (fun hij => hj hij.symm)]
  · show (mgr.update (PluginMessage.new i p.mTag mv)).2 = _
    rw [hfound]

/-- C1 witness: the routing theorem instantiated on the concrete
one-plugin manager. -/
theorem c1_witness :
    (PluginHandle.dispatch ⟨0, 0, 0⟩ 3 : List (PluginMessage WTy))
        = [PluginHandle.message ⟨0, 0, 0⟩ 3]
      ∧ (wmgr.update (PluginHandle.message ⟨0, 0, 0⟩ 3)).1.plugins[0]?
        = some (mk_entry wplug 0 (wplug.body.update 5 3).1)
      ∧ (∀ j, j ≠ 0 →
          (wmgr.update (PluginHandle.message ⟨0, 0, 0⟩ 3)).1.plugins[j]?
            = wmgr.plugins[j]?)
      ∧ (wmgr.update (PluginHandle.message ⟨0, 0, 0⟩ 3)).2
        = ((wplug.body.update 5 3).2.1).map (fun m => PluginMessage.new 0 wplug.mTag m) :=
  c1_routing_correctness wmgr wplug 0 5 3 rfl

/-- C2: an envelope addressed out of range, or whose type tag differs from
the target slot's declared message type tag, is silently dropped:
`update` returns the manager unchanged with a no-op task, every slot's
state is untouched and nothing is published to any listener. -/
theorem c2_silent_drop (mgr : PluginManager Ty) (msg : PluginMessage Ty)
    (h : mgr.plugins[msg.plugin_index]? = none ∨
      ∃ e, mgr.plugins[msg.plugin_index]? = some e ∧ e.message_type_id ≠ msg.type_id) :
    mgr.update msg = (mgr, [])
      ∧ (mgr.update msg).1.plugins = mgr.plugins
      ∧ ∀ j, (mgr.update msg).1.output_registry j = mgr.output_registry j := by
  have heq : mgr.update msg = (mgr, []) := by
    rcases h with h | ⟨e, he, ht⟩
    · exact PluginManager.update_oob mgr msg h
    · exact PluginManager.update_mismatch mgr msg e he ht
  exact ⟨heq, by rw [heq], fun j => by rw [heq]⟩

/-- C2 witness: an out-of-range envelope on the concrete manager. -/
theorem c2_witness :
    wmgr.update (PluginMessage.new 9 0 (3 : Nat)) = (wmgr, [])
      ∧ (wmgr.update (PluginMessage.new 9 0 (3 : Nat))).1.plugins = wmgr.plugins
      ∧ ∀ j, (wmgr.update (PluginMessage.new 9 0 (3 : Nat))).1.output_registry j
        = wmgr.output_registry j :=
  c2_silent_drop wmgr (PluginMessage.new 9 0 (3 : Nat)) (Or.inl rfl)

/-- C10: the task returned by `update` and the resulting slots are
independent of the contents of the output listener registry: two managers
with the same slots but arbitrary different registries produce identical
slots and identical tasks. -/
theorem c10_listener_independence (plugins : List (PluginEntry Ty))
    (r1 r2 : OutputRegistry Ty) (msg : PluginMessage Ty) :
    (PluginManager.update ⟨plugins, r1⟩ msg).1.plugins
        = (PluginManager.update ⟨plugins, r2⟩ msg).1.plugins
      ∧ (PluginManager.update ⟨plugins, r1⟩ msg).2
        = (PluginManager.update ⟨plugins, r2⟩ msg).2 := by
  cases hm : plugins[msg.plugin_index]? with
  | none =>
    rw [PluginManager.update_oob ⟨plugins, r1⟩ msg hm,
        PluginManager.update_oob ⟨plugins, r2⟩ msg hm]
    exact ⟨rfl, rfl⟩
  | some entry =>
    by_cases ht : entry.message_type_id = msg.type_id
    · rw [PluginManager.update_found ⟨plugins, r1⟩ msg entry hm ht,
          PluginManager.update_found ⟨plugins, r2⟩ msg entry hm ht]
      exact ⟨rfl, rfl⟩
    · rw [PluginManager.update_mismatch ⟨plugins, r1⟩ msg entry hm ht,
          PluginManager.update_mismatch ⟨plugins, r2⟩ msg entry hm ht]
      exact ⟨rfl, rfl⟩

theorem output_listener_events_single {R : Type} (i t : Nat)
    (filter : Ty t → Option R) (v : Ty t) :
    output_listener_events i t filter [PluginOutput.new i t v]
      = (filter v).toList := by
  unfold output_listener_events
  rw [List.filterMap_cons, output_listener_step_new]
  cases filter v <;> rfl

/-- C3: when routing a message to slot `i` makes its `update` return
`some` output, every live listener registered under slot `i` receives
exactly one new item (a slot-`i`-tagged clone of the output), listeners
registered under any other slot receive nothing, and the item a listener's
stream finally emits is its predicate applied to the output, emitted only
when the predicate returns `some`. -/
theorem c3_output_fanout (mgr : PluginManager Ty) (p : TypedPlugin Ty) (i : Nat)
    (sv : Ty p.sTag) (mv : Ty p.mTag) (ov : Ty p.oTag)
    (h : mgr.plugins[i]? = some (mk_entry p i sv))
    (hout : (p.body.update sv mv).2.2 = some ov)
    (halive : ∀ l ∈ mgr.output_registry i, l.alive = true) :
    ((mgr.update (PluginMessage.new i p.mTag mv)).1.output_registry i
        = (mgr.output_registry i).map
            (fun l => Listener.mk true (l.received ++ [PluginOutput.new i p.oTag ov])))
      ∧ (∀ j, j ≠ i →
          (mgr.update (PluginMessage.new i p.mTag mv)).1.output_registry j
            = mgr.output_registry j)
      ∧ (∀ (R : Type) (filter : Ty p.oTag → Option R) (items : List (PluginOutput Ty)),
          output_listener_events i p.oTag filter
              (items ++ [PluginOutput.new i p.oTag ov])
            = output_listener_events i p.oTag filter items ++ (filter ov).toList) := by
  have hup : (mk_entry p i sv).update_fn (mk_entry p i sv).state
      (⟨p.mTag, mv⟩ : Dyn Ty)
      = (⟨p.sTag, (p.body.update sv mv).1⟩,
         ((p.body.update sv mv).2.1).map (fun m => PluginMessage.new i p.mTag m),
         ((p.body.update sv mv).2.2).map (fun o => PluginOutput.new i p.oTag o)) :=
    install_update_fn_new p i sv mv
  have hfound := PluginManager.update_found mgr (PluginMessage.new i p.mTag mv)
    (mk_entry p i sv) h rfl
  simp only [PluginMessage.new, hup, hout, Option.map_some'] at hfound
  refine ⟨?_, ?_, ?_⟩
  · show (mgr.update ⟨i, p.mTag, ⟨p.mTag, mv⟩⟩).1.output_registry i = _
    rw [hfound]
    exact publish_all_alive mgr.output_registry i (PluginOutput.new i p.oTag ov) halive
  · intro j hj
    show (mgr.update ⟨i, p.mTag, ⟨p.mTag, mv⟩⟩).1.output_registry j = _
    rw [hfound]
    exact publish_ne mgr.output_registry i j (PluginOutput.new i p.oTag ov) hj
  · intro R filter items
    rw [output_listener_events_append, output_listener_events_single]

/-- C3 witness: one live listener on the concrete manager; the update at
state 5 with message 3 emits output 8. -/
theorem c3_witness :
    ((wmgr.update (PluginMessage.new 0 0 (3 : Nat))).1.output_registry 0
        = (wmgr.output_registry 0).map
            (fun l => Listener.mk true (l.received ++ [PluginOutput.new 0 0 (8 : Nat)])))
      ∧ (∀ j, j ≠ 0 →
          (wmgr.update (PluginMessage.new 0 0 (3 : Nat))).1.output_registry j
            = wmgr.output_registry j)
      ∧ (∀ (R : Type) (filter : Nat → Option R) (items : List (PluginOutput WTy)),
          output_listener_events 0 0 filter
              (items ++ [PluginOutput.new 0 0 (8 : Nat)])
            = output_listener_events 0 0 filter items ++ (filter 8).toList) :=
  c3_output_fanout wmgr wplug 0 5 3 8 rfl rfl
    (fun l hl => by rw [List.mem_singleton.mp hl])

/-- C4: a registration whose receiving end is dead is pruned by the first
`publish` that fails to send to it: the publish is total, delivers to the
live listeners only, and the resulting fan-out list no longer contains the
stale registration (every surviving registration is live). -/
theorem c4_listener_pruning (reg : OutputRegistry Ty) (i : Nat)
    (out : PluginOutput Ty) (l : Listener Ty) (hdead : l.alive = false) :
    (reg.publish i out) i
        = ((reg i).filter (fun l2 => l2.alive)).map
            (fun l2 => Listener.mk true (l2.received ++ [out]))
      ∧ l ∉ (reg.publish i out) i
      ∧ (∀ l2 ∈ (reg.publish i out) i, l2.alive = true)
      ∧ (∀ j, j ≠ i → (reg.publish i out) j = reg j) := by
  refine ⟨publish_at reg i out, ?_, ?_, fun j hj => publish_ne reg i j out hj⟩
  · intro hmem
    rw [publish_at] at hmem
    rcases List.mem_map.mp hmem with ⟨l2, _, hl2⟩
    have halive : l.alive = true := by rw [← hl2]
    rw [hdead] at halive
    exact Bool.false_ne_true halive
  · intro l2 h2
    rw [publish_at] at h2
    rcases List.mem_map.mp h2 with ⟨l3, _, hl3⟩
    rw [← hl3]

/-- C4 witness: publishing to a slot holding a dead registration prunes
it. -/
theorem c4_witness :
    (wreg2.publish 0 (PluginOutput.new 0 0 (8 : Nat))) 0
        = ((wreg2 0).filter (fun l2 => l2.alive)).map
            (fun l2 => Listener.mk true (l2.received ++ [PluginOutput.new 0 0 (8 : Nat)]))
      ∧ Listener.mk false [] ∉ (wreg2.publish 0 (PluginOutput.new 0 0 (8 : Nat))) 0
      ∧ (∀ l2 ∈ (wreg2.publish 0 (PluginOutput.new 0 0 (8 : Nat))) 0, l2.alive = true)
      ∧ (∀ j, j ≠ 0 → (wreg2.publish 0 (PluginOutput.new 0 0 (8 : Nat))) j = wreg2 j) :=
  c4_listener_pruning wreg2 0 (PluginOutput.new 0 0 (8 : Nat)) (Listener.mk false []) rfl

/-- Routing helper: the slot-level effect of `update` on an
install-shaped slot addressed by a well-typed envelope. -/
theorem update_routes (mgr : PluginManager Ty) (p : TypedPlugin Ty) (i : Nat)
    (sv : Ty p.sTag) (mv : Ty p.mTag)
    (h : mgr.plugins[i]? = some (mk_entry p i sv)) :
    (mgr.update (PluginMessage.new i p.mTag mv)).1.plugins[i]?
        = some (mk_entry p i (p.body.update sv mv).1)
      ∧ (∀ j, j ≠ i →
          (mgr.update (PluginMessage.new i p.mTag mv)).1.plugins[j]?
            = mgr.plugins[j]?) := by
  have hlt : i < mgr.plugins.length := (List.getElem?_eq_some_iff.mp h).1
  have hup : (mk_entry p i sv).update_fn (mk_entry p i sv).state
      (PluginMessage.new i p.mTag mv).message
      = (⟨p.sTag, (p.body.update sv mv).1⟩,
         ((p.body.update sv mv).2.1).map (fun m => PluginMessage.new i p.mTag m),
         ((p.body.update sv mv).2.2).map (fun o => PluginOutput.new i p.oTag o)) :=
    install_update_fn_new p i sv mv
  have hfound := PluginManager.update_found mgr (PluginMessage.new i p.mTag mv)
    (mk_entry p i sv) h rfl
  rw [hup] at hfound
  constructor
  · show (mgr.update (PluginMessage.new i p.mTag mv)).1.plugins[i]? = _
    rw [hfound]
    show (mgr.plugins.set i (mk_entry p i (p.body.update sv mv).1))[i]? = _
    rw [List.getElem?_set]
    rw [if_pos rfl, if_pos hlt]
  · intro j hj
    show (mgr.update (PluginMessage.new i p.mTag mv)).1.plugins[j]? = _
    rw [hfound]
    show (mgr.plugins.set i (mk_entry p i (p.body.update sv mv).1))[j]? = _
    rw [List.getElem?_set_ne (fun hij => hj hij.symm)]

/-- The concrete one-plugin manager is install-shaped. -/
theorem wmgr_installed : wmgr.Installed := by
  intro i e he
  cases i with
  | zero =>
    have he' : some (mk_entry wplug 0 (5 : Nat)) = some e := he
    injection he' with he'
    exact ⟨wplug, 5, he'.symm⟩
  | succ n =>
    have he' : (none : Option (PluginEntry WTy)) = some e := he
    exact Option.noConfusion he'

/-- C5: in a registry built only through `install`, every runtime downcast
succeeds: no slot's `plugin_subscription_fn` panics (so `subscriptions`
never panics), the update thunk's guarded downcasts take the success
branch on every well-typed envelope, and `PluginOutput::downcast` succeeds
whenever its type-tag check passes. -/
theorem c5_zero_downcast_failures (mgr : PluginManager Ty) (hI : mgr.Installed) :
    (∀ e ∈ mgr.plugins,
        (e.subscription_fn e.state e.plugin e.plugin_index).isSome = true)
      ∧ (mgr.subscriptions).isSome = true
      ∧ (∀ (p : TypedPlugin Ty) (idx : Nat) (sv : Ty p.sTag) (mv : Ty p.mTag),
          install_update_fn p idx ⟨p.sTag, sv⟩ ⟨p.mTag, mv⟩
            = (⟨p.sTag, (p.body.update sv mv).1⟩,
               ((p.body.update sv mv).2.1).map (fun m => PluginMessage.new idx p.mTag m),
               ((p.body.update sv mv).2.2).map (fun o => PluginOutput.new idx p.oTag o)))
      ∧ (∀ (idx t : Nat) (v : Ty t),
          (PluginOutput.new idx t v : PluginOutput Ty).downcast t = some v) := by
  have hall := installed_sub_isSome mgr hI
  refine ⟨hall, ?_, fun p idx sv mv => install_update_fn_new p idx sv mv,
    fun idx t v => PluginOutput.downcast_new idx t v⟩
  unfold PluginManager.subscriptions
  rw [collect_subscriptions_eq mgr.plugins hall]
  rfl

/-- C5 witness: the downcast-safety theorem instantiated on the concrete
installed manager. -/
theorem c5_witness :
    (∀ e ∈ wmgr.plugins,
        (e.subscription_fn e.state e.plugin e.plugin_index).isSome = true)
      ∧ (wmgr.subscriptions).isSome = true
      ∧ (∀ (p : TypedPlugin WTy) (idx : Nat) (sv : WTy p.sTag) (mv : WTy p.mTag),
          install_update_fn p idx ⟨p.sTag, sv⟩ ⟨p.mTag, mv⟩
            = (⟨p.sTag, (p.body.update sv mv).1⟩,
               ((p.body.update sv mv).2.1).map (fun m => PluginMessage.new idx p.mTag m),
               ((p.body.update sv mv).2.2).map (fun o => PluginOutput.new idx p.oTag o)))
      ∧ (∀ (idx t : Nat) (v : WTy t),
          (PluginOutput.new idx t v : PluginOutput WTy).downcast t = some v) :=
  c5_zero_downcast_failures wmgr wmgr_installed

/-- C6: on an installed registry, `subscriptions` collects one
contribution per slot — slot `i`'s contribution is its plugin's
`subscription` applied to slot `i`'s current state, with every yielded
message wrapped with slot `i`'s index — and returns their batched union. -/
theorem c6_subscriptions_merge (mgr : PluginManager Ty) (hI : mgr.Installed) :
    ∃ contribs : List (List (PluginMessage Ty)),
      contribs.length = mgr.plugins.length
        ∧ collect_subscriptions mgr.plugins = some contribs
        ∧ mgr.subscriptions = some contribs.flatten
        ∧ ∀ (i : Nat) (p : TypedPlugin Ty) (sv : Ty p.sTag),
            mgr.plugins[i]? = some (mk_entry p i sv) →
            contribs[i]? = some ((p.body.subscription sv).map
              (fun m => PluginMessage.new i p.mTag m)) := by
  refine ⟨mgr.plugins.map entry_subscription, by simp, ?_, ?_, ?_⟩
  · exact collect_subscriptions_eq mgr.plugins (installed_sub_isSome mgr hI)
  · unfold PluginManager.subscriptions
    rw [collect_subscriptions_eq mgr.plugins (installed_sub_isSome mgr hI)]
    rfl
  · intro i p sv hi
    rw [List.getElem?_map, hi]
    simp [entry_subscription_mk]

/-- C6 witness: the subscription-merge theorem instantiated on the
concrete installed manager. -/
theorem c6_witness :
    ∃ contribs : List (List (PluginMessage WTy)),
      contribs.length = wmgr.plugins.length
        ∧ collect_subscriptions wmgr.plugins = some contribs
        ∧ wmgr.subscriptions = some contribs.flatten
        ∧ ∀ (i : Nat) (p : TypedPlugin WTy) (sv : WTy p.sTag),
            wmgr.plugins[i]? = some (mk_entry p i sv) →
            contribs[i]? = some ((p.body.subscription sv).map
              (fun m => PluginMessage.new i p.mTag m)) :=
  c6_subscriptions_merge wmgr wmgr_installed

/-- C7: the builder accumulates plugins without exposing any registry, and
`build` returns the finished registry holding exactly the added plugins at
indices 0..N in addition order (each slot in its `init` state), together
with the single startup task batching every plugin's slot-tagged init task
in the same order; `install` performs the same accumulation as
`with_plugin` while additionally returning the new slot's handle. -/
theorem c7_builder_deferred_build (ps : List (TypedPlugin Ty)) :
    ((ps.foldl PluginManagerBuilder.with_plugin PluginManagerBuilder.new).build.1.plugins
        = mk_entries 0 ps)
      ∧ ((ps.foldl PluginManagerBuilder.with_plugin PluginManagerBuilder.new).build.2
        = (mk_init_tasks 0 ps).flatten)
      ∧ (∀ i : Nat, (mk_entries 0 ps : List (PluginEntry Ty))[i]?
          = (ps[i]?).map (fun p => mk_entry p i p.body.init.1))
      ∧ (∀ i : Nat, (mk_init_tasks 0 ps : List (List (PluginMessage Ty)))[i]?
          = (ps[i]?).map (fun p =>
              (p.body.init.2).map (fun m => PluginMessage.new i p.mTag m)))
      ∧ (mk_entries 0 ps : List (PluginEntry Ty)).length = ps.length
      ∧ (∀ (b : PluginManagerBuilder Ty) (p : TypedPlugin Ty),
          (b.install p).2 = b.with_plugin p
            ∧ (b.install p).1
              = PluginHandle.mk b.manager.plugins.length p.mTag p.oTag) := by
  rcases foldl_with_plugin ps PluginManagerBuilder.new with ⟨h1, h2, h3⟩
  refine ⟨?_, ?_, ?_, ?_, mk_entries_length 0 ps, fun b p => ⟨rfl, rfl⟩⟩
  · show (ps.foldl PluginManagerBuilder.with_plugin PluginManagerBuilder.new).manager.plugins
        = mk_entries 0 ps
    rw [h1]
    rfl
  · show ((ps.foldl PluginManagerBuilder.with_plugin PluginManagerBuilder.new).tasks).flatten
        = (mk_init_tasks 0 ps).flatten
    rw [h2]
    rfl
  · intro i
    simpa using mk_entries_getElem 0 ps i
  · intro i
    simpa using mk_init_tasks_getElem 0 ps i

/-- C9: when two plugins of the same concrete type are installed,
type-based lookup (`get_handle`, `get_plugin_state`,
`get_plugin_state_mut`) resolves to the first-installed instance (the one
with the lowest slot index), while the later instance remains routable
through its own index and handle. -/
theorem c9_first_instance_lookup (mgr : PluginManager Ty) (p q : TypedPlugin Ty)
    (i j : Nat) (sv : Ty p.sTag) (sw : Ty q.sTag) (pid : Nat)
    (hi : mgr.plugins[i]? = some (mk_entry p i sv))
    (hp : p.pluginTypeId = pid)
    (hfirst : ∀ k, k < i → ∀ e, mgr.plugins[k]? = some e → e.plugin_type ≠ pid)
    (hj : mgr.plugins[j]? = some (mk_entry q j sw))
    (_hq : q.pluginTypeId = pid)
    (mv : Ty q.mTag) :
    (∀ mTag oTag, mgr.get_handle pid mTag oTag = some (PluginHandle.mk i mTag oTag))
      ∧ mgr.get_plugin_state pid p.sTag = some sv
      ∧ mgr.get_plugin_state_mut pid p.sTag = some sv
      ∧ (mgr.update (PluginMessage.new j q.mTag mv)).1.plugins[j]?
          = some (mk_entry q j (q.body.update sw mv).1)
      ∧ (∀ k, k ≠ j →
          (mgr.update (PluginMessage.new j q.mTag mv)).1.plugins[k]?
            = mgr.plugins[k]?) := by
  have hpred : (fun e => pid == e.plugin_type) (mk_entry p i sv) = true := by
    show (pid == p.pluginTypeId) = true
    rw [hp]
    simp
  have hfind : mgr.plugins.find? (fun e => pid == e.plugin_type)
      = some (mk_entry p i sv) :=
    find?_first _ mgr.plugins i _ hi hpred
      (fun k hk b hb => by
        have hne := hfirst k hk b hb
        simp only [beq_eq_false_iff_ne]
        exact fun hh => hne hh.symm)
  refine ⟨?_, ?_, ?_, (update_routes mgr q j sw mv hj).1,
    (update_routes mgr q j sw mv hj).2⟩
  · intro mTag oTag
    unfold PluginManager.get_handle
    rw [hfind]
    rfl
  · unfold PluginManager.get_plugin_state
    rw [hfind]
    exact Dyn.downcast_mk p.sTag sv
  · unfold PluginManager.get_plugin_state_mut
    rw [hfind]
    exact Dyn.downcast_mk p.sTag sv

/-- C9 witness: two same-type plugins; lookup resolves to slot 0, slot 1
stays routable. -/
theorem c9_witness :
    (∀ mTag oTag, wmgr2.get_handle 7 mTag oTag = some (PluginHandle.mk 0 mTag oTag))
      ∧ wmgr2.get_plugin_state 7 wplug.sTag = some 5
      ∧ wmgr2.get_plugin_state_mut 7 wplug.sTag = some 5
      ∧ (wmgr2.update (PluginMessage.new 1 wplug2.mTag (3 : Nat))).1.plugins[1]?
          = some (mk_entry wplug2 1 (wplug2.body.update 9 3).1)
      ∧ (∀ k, k ≠ 1 →
          (wmgr2.update (PluginMessage.new 1 wplug2.mTag (3 : Nat))).1.plugins[k]?
            = wmgr2.plugins[k]?) :=
  c9_first_instance_lookup wmgr2 wplug wplug2 0 1 5 9 7 rfl rfl
    (fun k hk => absurd hk (Nat.not_lt_zero k)) rfl rfl 3
